import Mathlib

/-!
# Pod CIDR announcement of the MetalLB speaker (`pkg/bgp/speaker/pod_cidr.go`)

A shallow embedding of `withdraw`, `announcePodCIDRs` and `announce`.

* A Go `error` is its message; `nil` is `none`.
* The outside world (the BGP sessions and the session registry) is an explicit
  state `σ`.  `Session.Set` and `PeerSessions` are state transformers, so a
  `Set` call may answer differently each time it is made and two registry
  queries may return different lists.
* Every function also returns the list of `Set` calls it made (`Event`s, in the
  order in which they happened).
* The goroutines of one call touch the world only through their single `Set`
  call and touch the error group only when they return.  An execution is
  therefore fixed by two orders: the order in which the goroutines reach `Set`
  and the order in which they return.  Both are chosen by a `Schedule`.
* The properties are stated against `applySets`, which applies the `Set`
  method of each session once, and against `firstError`; they fix the recorded
  calls, the world that the functions leave and the error returned.
* `cidr.ParseCIDR` is a parameter of the development.
* Log lines are not modelled.
-/

namespace PodCIDR

/-! ## Data model -/

/-- An IP network, the value `net.IPNet` of Go: address bytes and mask bytes. -/
structure IPNet where
  IP : List Nat
  Mask : List Nat
deriving DecidableEq, Repr

/-- The result of `cidr.ParseCIDR`: a value embedding the parsed `IPNet`. -/
structure CIDR where
  IPNet : IPNet
deriving DecidableEq, Repr

/-- The `Advertisement` of the BGP library; the source fills in `Prefix` only. -/
structure Advertisement where
  Prefix : IPNet
deriving DecidableEq, Repr

/-- The type of `cidr.ParseCIDR`: a parsed value or an error message. -/
abbrev Parser := String → Except String CIDR

/-- One `Set` call: the session it was made on, its argument and what it returned. -/
structure Event where
  sess : Nat
  adverts : List Advertisement
  result : Option String
deriving DecidableEq, Repr

/-- The session and the argument of a `Set` call. -/
def Event.call (e : Event) : Nat × List Advertisement := (e.sess, e.adverts)

/-- A peer session: a handle `id` and its `Set` method acting on the world. -/
structure Session (σ : Type) where
  id : Nat
  Set : List Advertisement → σ → Option String × σ

/-- The speaker interface used by the source: the registry query `PeerSessions`. -/
structure Speaker (σ : Type) where
  PeerSessions : σ → List (Session σ) × σ

/-- The receiver of the three functions. -/
structure MetalLBSpeaker (σ : Type) where
  speaker : Speaker σ

/-! ## Scheduling -/

/-- The order in which pending goroutines run.  At each step the head of the
choice list picks one of the goroutines still pending (modulo their number);
when the choices run out the rest run in launch order. -/
def interleave {α : Type} : List Nat → List α → List α
  | [], xs => xs
  | _ :: _, [] => []
  | k :: ks, x :: rest =>
    (x :: rest).getD (k % (rest.length + 1)) x ::
      interleave ks ((x :: rest).eraseIdx (k % (rest.length + 1)))

/-- The scheduler's choices for one fan-out: the order in which the goroutines
reach their `Set` call and the order in which they return to the error group. -/
structure Schedule where
  calls : List Nat
  done : List Nat
deriving DecidableEq, Repr

/-- Runs goroutine bodies one after the other in the given order, threading the
world; returns what each returned, the `Set` calls made and the final world. -/
def runAll {σ : Type} :
    List (σ → Option String × List Event × σ) → σ → List (Option String) × List Event × σ
  | [], w => ([], [], w)
  | t :: ts, w =>
    ((t w).1 :: (runAll ts (t w).2.2).1,
     (t w).2.1 ++ (runAll ts (t w).2.2).2.1,
     (runAll ts (t w).2.2).2.2)

/-! ## `errgroup.Group` -/

/-- The state of an `errgroup.Group`: the error stored by `errOnce`, if any. -/
structure Group where
  err : Option String
deriving DecidableEq, Repr

/-- The zero value, `var eg errgroup.Group`. -/
def Group.zero : Group := ⟨none⟩

/-- A goroutine started by `Go` returns `r`: a non-nil error is stored unless
one is stored already (`errOnce.Do`). -/
def Group.finish (g : Group) (r : Option String) : Group :=
  match r with
  | none => g
  | some e => if g.err.isNone then ⟨some e⟩ else g

/-- The method `Wait`, once every goroutine has returned: the stored error. -/
def Group.Wait (g : Group) : Option String := g.err

/-! ## The source functions -/

/-- The value `emptyAdverts`. -/
def emptyAdverts : List Advertisement := []

/-- One iteration of the loop of `announce`: a malformed entry is skipped, a
parsed one is appended. -/
def announce_step (ParseCIDR : Parser) (adverts : List Advertisement) (c : String) :
    List Advertisement :=
  match ParseCIDR c with
  | .error _ => adverts
  | .ok parsed => adverts ++ [⟨parsed.IPNet⟩]

/-- The slice `adverts` of `announce` after its loop. -/
def announce_adverts (ParseCIDR : Parser) (cidrs : List String) : List Advertisement :=
  cidrs.foldl (announce_step ParseCIDR) []

/-- The function `announce`. -/
def announce {σ : Type} (ParseCIDR : Parser) (session : Session σ) (cidrs : List String)
    (w : σ) : Option String × List Event × σ :=
  if (announce_adverts ParseCIDR cidrs).length = 0 then
    (some "no BGP advertisements made", [], w)
  else
    ((session.Set (announce_adverts ParseCIDR cidrs) w).1,
     [⟨session.id, announce_adverts ParseCIDR cidrs,
        (session.Set (announce_adverts ParseCIDR cidrs) w).1⟩],
     (session.Set (announce_adverts ParseCIDR cidrs) w).2)

/-- The body of a goroutine of `withdraw`: `Set` with `emptyAdverts`; the
error is logged and dropped. -/
def withdraw_task {σ : Type} (sess : Session σ) (w : σ) : Option String × List Event × σ :=
  (none,
   [⟨sess.id, emptyAdverts, (sess.Set emptyAdverts w).1⟩],
   (sess.Set emptyAdverts w).2)

/-- The function `withdraw`: one goroutine per session of the registry
snapshot, joined by a wait group.  It returns nothing to its caller. -/
def withdraw {σ : Type} (s : MetalLBSpeaker σ) (sched : List Nat) (w : σ) :
    Unit × List Event × σ :=
  ((),
   (runAll ((interleave sched (s.speaker.PeerSessions w).1).map withdraw_task)
      (s.speaker.PeerSessions w).2).2)

/-- The goroutines started by the loop of `announcePodCIDRs` over the sessions
`launched`, run in the order the schedule chooses: what each returned, the `Set`
calls made and the final world. -/
abbrev announcePodCIDRs_goroutines {σ : Type} (ParseCIDR : Parser)
    (launched : List (Session σ)) (cidrs : List String) (sched : Schedule) (w : σ) :
    List (Option String) × List Event × σ :=
  runAll ((interleave sched.calls launched).map (fun sess => announce ParseCIDR sess cidrs)) w

/-- The function `announcePodCIDRs`.  The registry is queried once for the
emptiness check and once more by the `range` expression of the loop; `Wait`
returns the error of the first goroutine, in order of return, whose error is
non-nil. -/
def announcePodCIDRs {σ : Type} (ParseCIDR : Parser) (s : MetalLBSpeaker σ)
    (cidrs : List String) (sched : Schedule) (w : σ) : Option String × List Event × σ :=
  if (s.speaker.PeerSessions w).1.length = 0 then
    (some "No established BGP session", [], (s.speaker.PeerSessions w).2)
  else
    (((interleave sched.done
          (announcePodCIDRs_goroutines ParseCIDR
            (s.speaker.PeerSessions (s.speaker.PeerSessions w).2).1 cidrs sched
            (s.speaker.PeerSessions (s.speaker.PeerSessions w).2).2).1).foldl
        Group.finish Group.zero).Wait,
     (announcePodCIDRs_goroutines ParseCIDR
        (s.speaker.PeerSessions (s.speaker.PeerSessions w).2).1 cidrs sched
        (s.speaker.PeerSessions (s.speaker.PeerSessions w).2).2).2)

/-! ## Specification-side notions -/

/-- Whether `ParseCIDR` accepts the entry. -/
def accepts (ParseCIDR : Parser) (c : String) : Bool :=
  match ParseCIDR c with
  | .error _ => false
  | .ok _ => true

/-- The advertisement of one entry as the specification words it: the parsed
prefix of an accepted entry, nothing for a rejected one. -/
def parsedAdvert (ParseCIDR : Parser) (c : String) : Option Advertisement :=
  match ParseCIDR c with
  | .error _ => none
  | .ok parsed => some ⟨parsed.IPNet⟩

/-- The sanitizer of the specification: the input restricted to the accepted
entries, each mapped to its advertisement, in input order. -/
def toAdvertisements (ParseCIDR : Parser) (cidrs : List String) : List Advertisement :=
  cidrs.filterMap (parsedAdvert ParseCIDR)

/-- The reference for "one `Set` call on every session": the `Set` method of
each session of `order` applied once, one after the other, to the argument
`adverts`, from the world `w`; the calls with what `Set` returned, and the world
that the last `Set` left. -/
def applySets {σ : Type} (adverts : List Advertisement) :
    List (Session σ) → σ → List Event × σ
  | [], w => ([], w)
  | x :: xs, w =>
    (⟨x.id, adverts, (x.Set adverts w).1⟩ :: (applySets adverts xs (x.Set adverts w).2).1,
     (applySets adverts xs (x.Set adverts w).2).2)

/-- The reference for "the first error encountered": the first non-nil entry
of the goroutine results listed in their order of return. -/
def firstError (returned : List (Option String)) : Option String :=
  returned.findSome? id

/-! ## Fixtures used to evaluate the functions on concrete inputs -/

/-- A parser accepting two sample entries and rejecting every other string. -/
def sampleParseCIDR : Parser := fun c =>
  if c = "10.0.0.0/24" then .ok ⟨⟨[10, 0, 0, 0], [255, 255, 255, 0]⟩⟩
  else if c = "10.0.1.0/24" then .ok ⟨⟨[10, 0, 1, 0], [255, 255, 255, 0]⟩⟩
  else .error ("invalid CIDR address: " ++ c)

/-- A session whose `Set` always succeeds; the world counts the calls. -/
def okSession (id : Nat) : Session Nat := ⟨id, fun _ w => (none, w + 1)⟩

/-- A session whose `Set` always fails with the given message. -/
def failSession (id : Nat) (msg : String) : Session Nat := ⟨id, fun _ w => (some msg, w + 1)⟩

/-- A registry that returns the same list at every query. -/
def fixedSpeaker {σ : Type} (sessions : List (Session σ)) : MetalLBSpeaker σ :=
  ⟨⟨fun w => (sessions, w)⟩⟩

/-- A registry over a world counting its queries: the first query returns
`first`, every later query returns `later`. -/
def shiftingSpeaker (first later : List (Session Nat)) : MetalLBSpeaker Nat :=
  ⟨⟨fun w => (if w = 0 then first else later, w + 1)⟩⟩

/-- A session over a world that is the list of the `Set` calls received so
far: its `Set` appends the call to the world and returns `res`. -/
def recordingSession (id : Nat) (res : Option String) : Session (List Event) :=
  ⟨id, fun a w => (res, w ++ [⟨id, a, res⟩])⟩

/-! ## Lemmas on scheduling -/

theorem getD_cons_eraseIdx_perm {α : Type} (l : List α) (i : Nat) (d : α)
    (h : i < l.length) : List.Perm (l.getD i d :: l.eraseIdx i) l := by
  induction l generalizing i with
  | nil => simp at h
  | cons a t ih =>
    cases i with
    | zero => simp
    | succ j =>
      have hj : j < t.length := by simpa using h
      have h1 : List.Perm (t.getD j d :: a :: t.eraseIdx j) (a :: t.getD j d :: t.eraseIdx j) :=
        List.Perm.swap _ _ _
      have h2 : List.Perm (a :: t.getD j d :: t.eraseIdx j) (a :: t) :=
        List.Perm.cons a (ih j hj)
      simpa using h1.trans h2

theorem interleave_perm {α : Type} (ks : List Nat) (xs : List α) :
    List.Perm (interleave ks xs) xs := by
  induction ks generalizing xs with
  | nil => cases xs <;> simp [interleave]
  | cons k ks ih =>
    cases xs with
    | nil => simp [interleave]
    | cons x rest =>
      simp only [interleave]
      have hlt : k % (rest.length + 1) < (x :: rest).length := by
        simpa using Nat.mod_lt k (Nat.succ_pos rest.length)
      exact (List.Perm.cons _ (ih _)).trans (getD_cons_eraseIdx_perm (x :: rest) _ x hlt)

/-- Every order of the pending goroutines is produced by some choice list. -/
theorem interleave_reaches {α : Type} (ys xs : List α) (h : List.Perm ys xs) :
    ∃ ks, interleave ks xs = ys := by
  induction ys generalizing xs with
  | nil =>
    have hx : xs = [] := h.symm.eq_nil
    subst hx
    exact ⟨[], rfl⟩
  | cons y ys ih =>
    have hy : y ∈ xs := h.subset (List.mem_cons_self _ _)
    obtain ⟨i, hi, hget⟩ := List.getElem_of_mem hy
    cases xs with
    | nil => simp at hy
    | cons x rest =>
      have hgetD : (x :: rest).getD i x = y := by
        rw [List.getD_eq_getElem _ _ hi]
        exact hget
      have hperm := getD_cons_eraseIdx_perm (x :: rest) i x hi
      rw [hgetD] at hperm
      obtain ⟨ks, hks⟩ := ih _ (List.Perm.cons_inv (h.trans hperm.symm))
      refine ⟨i :: ks, ?_⟩
      have hmod : i % (rest.length + 1) = i := Nat.mod_eq_of_lt (by simpa using hi)
      simp only [interleave, hmod, hgetD, hks]

/-! ## Lemmas on the loop of `announce` -/

theorem foldl_announce_step (ParseCIDR : Parser) (cidrs : List String)
    (acc : List Advertisement) :
    cidrs.foldl (announce_step ParseCIDR) acc = acc ++ toAdvertisements ParseCIDR cidrs := by
  induction cidrs generalizing acc with
  | nil => simp [toAdvertisements]
  | cons c cs ih =>
    rw [List.foldl_cons, ih]
    unfold announce_step toAdvertisements parsedAdvert
    cases hc : ParseCIDR c <;> simp [List.filterMap_cons, hc]

theorem announce_adverts_eq (ParseCIDR : Parser) (cidrs : List String) :
    announce_adverts ParseCIDR cidrs = toAdvertisements ParseCIDR cidrs := by
  simp [announce_adverts, foldl_announce_step]

theorem parsedAdvert_isSome (ParseCIDR : Parser) (c : String) :
    (parsedAdvert ParseCIDR c).isSome = accepts ParseCIDR c := by
  unfold parsedAdvert accepts
  cases ParseCIDR c <;> rfl

theorem toAdvertisements_eq_nil (ParseCIDR : Parser) (cidrs : List String) :
    toAdvertisements ParseCIDR cidrs = [] ↔ ∀ c ∈ cidrs, accepts ParseCIDR c = false := by
  unfold toAdvertisements
  rw [List.filterMap_eq_nil_iff]
  constructor
  · intro h c hc
    have := h c hc
    rw [← parsedAdvert_isSome, this]
    rfl
  · intro h c hc
    have := h c hc
    rw [← parsedAdvert_isSome] at this
    cases hp : parsedAdvert ParseCIDR c with
    | none => rfl
    | some a => simp [hp] at this

theorem announce_adverts_ne_nil (ParseCIDR : Parser) (cidrs : List String)
    (h : ∃ c ∈ cidrs, accepts ParseCIDR c = true) : announce_adverts ParseCIDR cidrs ≠ [] := by
  rw [announce_adverts_eq]
  intro hnil
  obtain ⟨c, hc, hacc⟩ := h
  have := (toAdvertisements_eq_nil ParseCIDR cidrs).1 hnil c hc
  simp [this] at hacc

theorem announce_adverts_eq_nil (ParseCIDR : Parser) (cidrs : List String)
    (h : ∀ c ∈ cidrs, accepts ParseCIDR c = false) : announce_adverts ParseCIDR cidrs = [] := by
  rw [announce_adverts_eq]
  exact (toAdvertisements_eq_nil ParseCIDR cidrs).2 h

theorem length_toAdvertisements (ParseCIDR : Parser) (cidrs : List String) :
    (toAdvertisements ParseCIDR cidrs).length = cidrs.countP (accepts ParseCIDR) := by
  induction cidrs with
  | nil => rfl
  | cons c cs ih =>
    have hcons : toAdvertisements ParseCIDR (c :: cs) =
        (parsedAdvert ParseCIDR c).toList ++ toAdvertisements ParseCIDR cs := by
      unfold toAdvertisements
      cases hp : parsedAdvert ParseCIDR c <;> simp [List.filterMap_cons, hp]
    rw [hcons, List.length_append, ih, List.countP_cons, ← parsedAdvert_isSome]
    cases parsedAdvert ParseCIDR c <;> simp [Nat.add_comm]

/-! ## Lemmas on the error group -/

theorem foldl_finish_of_some (l : List (Option String)) (e : String) :
    (l.foldl Group.finish ⟨some e⟩).err = some e := by
  induction l with
  | nil => rfl
  | cons r rs ih =>
    cases r with
    | none => simpa [Group.finish] using ih
    | some e2 => simpa [Group.finish] using ih

theorem foldl_finish_zero_none (l : List (Option String)) :
    (l.foldl Group.finish Group.zero).Wait = none ↔ ∀ r ∈ l, r = none := by
  induction l with
  | nil => simp [Group.zero, Group.Wait]
  | cons r rs ih =>
    cases r with
    | none => simpa [Group.finish] using ih
    | some e =>
      simp [Group.finish, Group.zero, Group.Wait, foldl_finish_of_some]

theorem foldl_finish_zero_mem (l : List (Option String)) (e : String)
    (h : (l.foldl Group.finish Group.zero).Wait = some e) : some e ∈ l := by
  induction l with
  | nil => simp [Group.zero, Group.Wait] at h
  | cons r rs ih =>
    cases r with
    | none =>
      have : some e ∈ rs := ih (by simpa [Group.finish] using h)
      exact List.mem_cons_of_mem _ this
    | some e2 =>
      simp [Group.finish, Group.zero, Group.Wait, foldl_finish_of_some] at h
      simp [h]

theorem foldl_finish_zero_firstError (l : List (Option String)) :
    (l.foldl Group.finish Group.zero).Wait = firstError l := by
  induction l with
  | nil => rfl
  | cons r rs ih =>
    cases r with
    | none => simpa [Group.finish, firstError] using ih
    | some e => simp [Group.finish, Group.zero, Group.Wait, firstError, foldl_finish_of_some]

/-! ## Lemmas on the fan-out -/

theorem runAll_announce_applySets {σ : Type} (ParseCIDR : Parser) (cidrs : List String)
    (hne : announce_adverts ParseCIDR cidrs ≠ []) (l : List (Session σ)) (w : σ) :
    (runAll (l.map (fun sess => announce ParseCIDR sess cidrs)) w).2
      = applySets (announce_adverts ParseCIDR cidrs) l w := by
  have hlen : ¬ (announce_adverts ParseCIDR cidrs).length = 0 := by
    simpa [List.length_eq_zero] using hne
  induction l generalizing w with
  | nil => simp [runAll, applySets]
  | cons a t ih =>
    have ha : announce ParseCIDR a cidrs w =
        ((a.Set (announce_adverts ParseCIDR cidrs) w).1,
         [⟨a.id, announce_adverts ParseCIDR cidrs,
            (a.Set (announce_adverts ParseCIDR cidrs) w).1⟩],
         (a.Set (announce_adverts ParseCIDR cidrs) w).2) := by
      simp [announce, hlen]
    have ih2 := ih (a.Set (announce_adverts ParseCIDR cidrs) w).2
    simp only [List.map_cons, runAll, applySets, ha]
    rw [Prod.ext_iff] at ih2 ⊢
    simp only [] at ih2 ⊢
    rw [ih2.1, ih2.2]
    exact ⟨rfl, rfl⟩

theorem runAll_withdraw_applySets {σ : Type} (l : List (Session σ)) (w : σ) :
    (runAll (l.map withdraw_task) w).2 = applySets emptyAdverts l w := by
  induction l generalizing w with
  | nil => simp [runAll, applySets]
  | cons a t ih =>
    have ih2 := ih (a.Set emptyAdverts w).2
    simp only [List.map_cons, runAll, applySets, withdraw_task]
    rw [Prod.ext_iff] at ih2 ⊢
    simp only [] at ih2 ⊢
    rw [ih2.1, ih2.2]
    exact ⟨rfl, rfl⟩

theorem applySets_nil_order {σ : Type} (adverts : List Advertisement) (w : σ) :
    applySets adverts ([] : List (Session σ)) w = ([], w) := rfl


theorem runAll_announce_calls {σ : Type} (ParseCIDR : Parser) (cidrs : List String)
    (hne : announce_adverts ParseCIDR cidrs ≠ []) (l : List (Session σ)) (w : σ) :
    (runAll (l.map (fun sess => announce ParseCIDR sess cidrs)) w).2.1.map Event.call
      = l.map (fun x => (x.id, announce_adverts ParseCIDR cidrs)) := by
  have hlen : ¬ (announce_adverts ParseCIDR cidrs).length = 0 := by
    simpa [List.length_eq_zero] using hne
  induction l generalizing w with
  | nil => simp [runAll]
  | cons a t ih =>
    simp only [List.map_cons, runAll, List.map_append, ih]
    simp [announce, hlen, Event.call]

theorem runAll_announce_results {σ : Type} (ParseCIDR : Parser) (cidrs : List String)
    (hne : announce_adverts ParseCIDR cidrs ≠ []) (l : List (Session σ)) (w : σ) :
    (runAll (l.map (fun sess => announce ParseCIDR sess cidrs)) w).2.1.map Event.result
      = (runAll (l.map (fun sess => announce ParseCIDR sess cidrs)) w).1 := by
  have hlen : ¬ (announce_adverts ParseCIDR cidrs).length = 0 := by
    simpa [List.length_eq_zero] using hne
  induction l generalizing w with
  | nil => simp [runAll]
  | cons a t ih =>
    simp only [List.map_cons, runAll, List.map_append, ih]
    simp [announce, hlen]

theorem runAll_announce_nil {σ : Type} (ParseCIDR : Parser) (cidrs : List String)
    (hnil : announce_adverts ParseCIDR cidrs = []) (l : List (Session σ)) (w : σ) :
    runAll (l.map (fun sess => announce ParseCIDR sess cidrs)) w
      = (l.map (fun _ => some "no BGP advertisements made"), [], w) := by
  induction l generalizing w with
  | nil => simp [runAll]
  | cons a t ih =>
    have ha : announce ParseCIDR a cidrs w = (some "no BGP advertisements made", [], w) := by
      simp [announce, hnil]
    simp only [List.map_cons, runAll, ha, ih]
    simp

theorem runAll_withdraw_calls {σ : Type} (l : List (Session σ)) (w : σ) :
    (runAll (l.map withdraw_task) w).2.1.map Event.call
      = l.map (fun x => (x.id, emptyAdverts)) := by
  induction l generalizing w with
  | nil => simp [runAll]
  | cons a t ih =>
    simp only [List.map_cons, runAll, List.map_append, ih]
    simp [withdraw_task, Event.call]

/-! ## Lemmas on `announcePodCIDRs` with a stable registry -/

theorem announcePodCIDRs_stable {σ : Type} (ParseCIDR : Parser) (s : MetalLBSpeaker σ)
    (sessions : List (Session σ)) (cidrs : List String) (sched : Schedule) (w : σ)
    (hreg : ∀ v, (s.speaker.PeerSessions v).1 = sessions) (hne : sessions ≠ []) :
    announcePodCIDRs ParseCIDR s cidrs sched w =
      ((((interleave sched.done
            (runAll
              ((interleave sched.calls sessions).map (fun sess => announce ParseCIDR sess cidrs))
              (s.speaker.PeerSessions (s.speaker.PeerSessions w).2).2).1).foldl
          Group.finish Group.zero).Wait),
       (runAll
          ((interleave sched.calls sessions).map (fun sess => announce ParseCIDR sess cidrs))
          (s.speaker.PeerSessions (s.speaker.PeerSessions w).2).2).2) := by
  have hlen : ¬ sessions.length = 0 := by simpa [List.length_eq_zero] using hne
  unfold announcePodCIDRs
  simp only [hreg, hlen, if_false]

theorem announcePodCIDRs_calls_perm {σ : Type} (ParseCIDR : Parser) (s : MetalLBSpeaker σ)
    (sessions : List (Session σ)) (cidrs : List String) (sched : Schedule) (w : σ)
    (hreg : ∀ v, (s.speaker.PeerSessions v).1 = sessions) (hne : sessions ≠ [])
    (hadv : announce_adverts ParseCIDR cidrs ≠ []) :
    List.Perm ((announcePodCIDRs ParseCIDR s cidrs sched w).2.1.map Event.call)
      (sessions.map (fun x => (x.id, announce_adverts ParseCIDR cidrs))) := by
  rw [announcePodCIDRs_stable ParseCIDR s sessions cidrs sched w hreg hne]
  simp only []
  rw [runAll_announce_calls ParseCIDR cidrs hadv]
  exact (interleave_perm sched.calls sessions).map _

theorem announcePodCIDRs_none_iff {σ : Type} (ParseCIDR : Parser) (s : MetalLBSpeaker σ)
    (sessions : List (Session σ)) (cidrs : List String) (sched : Schedule) (w : σ)
    (hreg : ∀ v, (s.speaker.PeerSessions v).1 = sessions) (hne : sessions ≠ [])
    (hadv : announce_adverts ParseCIDR cidrs ≠ []) :
    (announcePodCIDRs ParseCIDR s cidrs sched w).1 = none ↔
      ∀ e ∈ (announcePodCIDRs ParseCIDR s cidrs sched w).2.1, e.result = none := by
  rw [announcePodCIDRs_stable ParseCIDR s sessions cidrs sched w hreg hne]
  simp only []
  rw [foldl_finish_zero_none]
  constructor
  · intro h e he
    apply h
    rw [(interleave_perm sched.done _).mem_iff, ← runAll_announce_results ParseCIDR cidrs hadv]
    exact List.mem_map_of_mem _ he
  · intro h r hr
    rw [(interleave_perm sched.done _).mem_iff, ← runAll_announce_results ParseCIDR cidrs hadv,
      List.mem_map] at hr
    obtain ⟨e, he, rfl⟩ := hr
    exact h e he

theorem announcePodCIDRs_some_mem {σ : Type} (ParseCIDR : Parser) (s : MetalLBSpeaker σ)
    (sessions : List (Session σ)) (cidrs : List String) (sched : Schedule) (w : σ)
    (hreg : ∀ v, (s.speaker.PeerSessions v).1 = sessions) (hne : sessions ≠ [])
    (hadv : announce_adverts ParseCIDR cidrs ≠ []) (err : String)
    (hres : (announcePodCIDRs ParseCIDR s cidrs sched w).1 = some err) :
    ∃ e ∈ (announcePodCIDRs ParseCIDR s cidrs sched w).2.1, e.result = some err := by
  rw [announcePodCIDRs_stable ParseCIDR s sessions cidrs sched w hreg hne] at hres ⊢
  simp only [] at hres ⊢
  have hmem := foldl_finish_zero_mem _ err hres
  rw [(interleave_perm sched.done _).mem_iff, ← runAll_announce_results ParseCIDR cidrs hadv,
    List.mem_map] at hmem
  exact hmem

theorem announcePodCIDRs_no_adverts {σ : Type} (ParseCIDR : Parser) (s : MetalLBSpeaker σ)
    (sessions : List (Session σ)) (cidrs : List String) (sched : Schedule) (w : σ)
    (hreg : ∀ v, (s.speaker.PeerSessions v).1 = sessions) (hne : sessions ≠ [])
    (hnil : announce_adverts ParseCIDR cidrs = []) :
    (announcePodCIDRs ParseCIDR s cidrs sched w).1 = some "no BGP advertisements made" ∧
      (announcePodCIDRs ParseCIDR s cidrs sched w).2.1 = [] := by
  rw [announcePodCIDRs_stable ParseCIDR s sessions cidrs sched w hreg hne]
  simp only [runAll_announce_nil ParseCIDR cidrs hnil]
  refine ⟨?_, trivial⟩
  have hperm := interleave_perm sched.done
    ((interleave sched.calls sessions).map (fun _ => some "no BGP advertisements made"))
  have hall : ∀ r ∈ interleave sched.done
      ((interleave sched.calls sessions).map (fun _ => some "no BGP advertisements made")),
      r = some "no BGP advertisements made" := by
    intro r hr
    rw [hperm.mem_iff, List.mem_map] at hr
    obtain ⟨_, _, rfl⟩ := hr
    rfl
  have hnonempty : interleave sched.done
      ((interleave sched.calls sessions).map (fun _ => some "no BGP advertisements made"))
      ≠ [] := by
    intro h0
    have hl := hperm.length_eq
    rw [h0, List.length_map, (interleave_perm sched.calls sessions).length_eq] at hl
    exact hne (List.length_eq_zero.1 hl.symm)
  generalize interleave sched.done
      ((interleave sched.calls sessions).map (fun _ => some "no BGP advertisements made"))
      = l at hall hnonempty
  cases l with
  | nil => exact absurd rfl hnonempty
  | cons r rs =>
    have hr : r = some "no BGP advertisements made" := hall r (List.mem_cons_self _ _)
    subst hr
    simp [Group.finish, Group.zero, Group.Wait, foldl_finish_of_some]

theorem announcePodCIDRs_adverts_ne_nil {σ : Type} (ParseCIDR : Parser) (s : MetalLBSpeaker σ)
    (cidrs : List String) (sched : Schedule) (w : σ) :
    ∀ e ∈ (announcePodCIDRs ParseCIDR s cidrs sched w).2.1, e.adverts ≠ [] := by
  unfold announcePodCIDRs
  by_cases h0 : (s.speaker.PeerSessions w).1.length = 0
  · simp [h0]
  · simp only [h0, if_false]
    by_cases hadv : announce_adverts ParseCIDR cidrs = []
    · simp [runAll_announce_nil ParseCIDR cidrs hadv]
    · intro e he
      have hc : e.call ∈ (interleave sched.calls
          (s.speaker.PeerSessions (s.speaker.PeerSessions w).2).1).map
          (fun x => (x.id, announce_adverts ParseCIDR cidrs)) := by
        rw [← runAll_announce_calls ParseCIDR cidrs hadv _
          (s.speaker.PeerSessions (s.speaker.PeerSessions w).2).2]
        exact List.mem_map_of_mem _ he
      rw [List.mem_map] at hc
      obtain ⟨x, _, hx⟩ := hc
      have : e.adverts = announce_adverts ParseCIDR cidrs := by
        have := congrArg Prod.snd hx
        simpa [Event.call] using this.symm
      rw [this]
      exact hadv

theorem announcePodCIDRs_applySets {σ : Type} (ParseCIDR : Parser) (s : MetalLBSpeaker σ)
    (sessions : List (Session σ)) (cidrs : List String) (sched : Schedule) (w : σ)
    (hreg : ∀ v, (s.speaker.PeerSessions v).1 = sessions) (hne : sessions ≠ [])
    (hadv : announce_adverts ParseCIDR cidrs ≠ []) :
    (announcePodCIDRs ParseCIDR s cidrs sched w).2 =
      applySets (toAdvertisements ParseCIDR cidrs) (interleave sched.calls sessions)
        (s.speaker.PeerSessions (s.speaker.PeerSessions w).2).2 := by
  rw [announcePodCIDRs_stable ParseCIDR s sessions cidrs sched w hreg hne,
    ← announce_adverts_eq]
  exact runAll_announce_applySets ParseCIDR cidrs hadv _ _

theorem announcePodCIDRs_firstError {σ : Type} (ParseCIDR : Parser) (s : MetalLBSpeaker σ)
    (sessions : List (Session σ)) (cidrs : List String) (sched : Schedule) (w : σ)
    (hreg : ∀ v, (s.speaker.PeerSessions v).1 = sessions) (hne : sessions ≠ [])
    (hadv : announce_adverts ParseCIDR cidrs ≠ []) :
    (announcePodCIDRs ParseCIDR s cidrs sched w).1 =
      firstError (interleave sched.done
        ((applySets (toAdvertisements ParseCIDR cidrs) (interleave sched.calls sessions)
          (s.speaker.PeerSessions (s.speaker.PeerSessions w).2).2).1.map Event.result)) := by
  rw [announcePodCIDRs_stable ParseCIDR s sessions cidrs sched w hreg hne,
    ← announce_adverts_eq]
  simp only []
  rw [foldl_finish_zero_firstError, ← runAll_announce_applySets ParseCIDR cidrs hadv,
    runAll_announce_results ParseCIDR cidrs hadv]

theorem announcePodCIDRs_no_adverts_world {σ : Type} (ParseCIDR : Parser)
    (s : MetalLBSpeaker σ) (sessions : List (Session σ)) (cidrs : List String)
    (sched : Schedule) (w : σ)
    (hreg : ∀ v, (s.speaker.PeerSessions v).1 = sessions) (hne : sessions ≠ [])
    (hnil : announce_adverts ParseCIDR cidrs = []) :
    (announcePodCIDRs ParseCIDR s cidrs sched w).2 =
      ([], (s.speaker.PeerSessions (s.speaker.PeerSessions w).2).2) := by
  rw [announcePodCIDRs_stable ParseCIDR s sessions cidrs sched w hreg hne]
  simp only [runAll_announce_nil ParseCIDR cidrs hnil]

theorem firstError_eq_none (l : List (Option String)) :
    firstError l = none ↔ ∀ r ∈ l, r = none := by
  rw [← foldl_finish_zero_firstError]
  exact foldl_finish_zero_none l

theorem firstError_mem (l : List (Option String)) (e : String)
    (h : firstError l = some e) : some e ∈ l := by
  rw [← foldl_finish_zero_firstError] at h
  exact foldl_finish_zero_mem l e h

/-! ## Properties of the three functions -/

/-- C1: with a registry that reports the non-empty list `sessions` and a CIDR
list holding an accepted entry, under every schedule and whatever the `Set`
calls return, the calls recorded by `announcePodCIDRs` and the world it leaves
are those of applying the `Set` method of every session once, in an order that
is a permutation of `sessions`, each time to the parsed prefixes of the accepted
entries in input order; so the recorded calls are one per entry of `sessions`
with that argument. -/
theorem announce_one_set_per_session {σ : Type} (ParseCIDR : Parser) (s : MetalLBSpeaker σ)
    (sessions : List (Session σ)) (cidrs : List String) (sched : Schedule) (w : σ)
    (hreg : ∀ v, (s.speaker.PeerSessions v).1 = sessions) (hne : sessions ≠ [])
    (hvalid : ∃ c ∈ cidrs, accepts ParseCIDR c = true) :
    List.Perm (interleave sched.calls sessions) sessions ∧
      (announcePodCIDRs ParseCIDR s cidrs sched w).2 =
        applySets (toAdvertisements ParseCIDR cidrs) (interleave sched.calls sessions)
          (s.speaker.PeerSessions (s.speaker.PeerSessions w).2).2 ∧
      List.Perm ((announcePodCIDRs ParseCIDR s cidrs sched w).2.1.map Event.call)
        (sessions.map (fun x => (x.id, toAdvertisements ParseCIDR cidrs))) := by
  have hadv := announce_adverts_ne_nil ParseCIDR cidrs hvalid
  refine ⟨interleave_perm _ _,
    announcePodCIDRs_applySets ParseCIDR s sessions cidrs sched w hreg hne hadv, ?_⟩
  rw [← announce_adverts_eq]
  exact announcePodCIDRs_calls_perm ParseCIDR s sessions cidrs sched w hreg hne hadv

theorem announce_one_set_per_session_witness :
    ((∀ v, ((fixedSpeaker [recordingSession 1 none,
          recordingSession 2 (some "boom")]).speaker.PeerSessions v).1
        = [recordingSession 1 none, recordingSession 2 (some "boom")]) ∧
      [recordingSession 1 none, recordingSession 2 (some "boom")] ≠ [] ∧
      ∃ c ∈ ["10.0.0.0/24", "bad", "10.0.1.0/24"], accepts sampleParseCIDR c = true) ∧
    (announcePodCIDRs sampleParseCIDR
        (fixedSpeaker [recordingSession 1 none, recordingSession 2 (some "boom")])
        ["10.0.0.0/24", "bad", "10.0.1.0/24"] ⟨[1], [0]⟩ []).2.2 =
      [⟨2, [⟨⟨[10, 0, 0, 0], [255, 255, 255, 0]⟩⟩, ⟨⟨[10, 0, 1, 0], [255, 255, 255, 0]⟩⟩],
          some "boom"⟩,
       ⟨1, [⟨⟨[10, 0, 0, 0], [255, 255, 255, 0]⟩⟩, ⟨⟨[10, 0, 1, 0], [255, 255, 255, 0]⟩⟩],
          none⟩] :=
  ⟨⟨fun _ => rfl, by simp, "10.0.0.0/24", by simp, by decide⟩,
   (congrArg Prod.snd
     (announce_one_set_per_session sampleParseCIDR
       (fixedSpeaker [recordingSession 1 none, recordingSession 2 (some "boom")])
       [recordingSession 1 none, recordingSession 2 (some "boom")]
       ["10.0.0.0/24", "bad", "10.0.1.0/24"] ⟨[1], [0]⟩ [] (fun _ => rfl) (by simp)
       ⟨"10.0.0.0/24", by simp, by decide⟩).2.1).trans (by decide)⟩

/-- C2: with a registry that reports the non-empty list `sessions` and a CIDR
list holding an accepted entry, the calls recorded by `announcePodCIDRs` and the
world it leaves are those of applying the `Set` method of every session once,
and the result is nil exactly when every one of these applications of `Set`
returned nil; so the result is non-nil as soon as one `Set` returned an error. -/
theorem announce_nil_iff_all_sets_nil {σ : Type} (ParseCIDR : Parser) (s : MetalLBSpeaker σ)
    (sessions : List (Session σ)) (cidrs : List String) (sched : Schedule) (w : σ)
    (hreg : ∀ v, (s.speaker.PeerSessions v).1 = sessions) (hne : sessions ≠ [])
    (hvalid : ∃ c ∈ cidrs, accepts ParseCIDR c = true) :
    List.Perm (interleave sched.calls sessions) sessions ∧
      (announcePodCIDRs ParseCIDR s cidrs sched w).2 =
        applySets (toAdvertisements ParseCIDR cidrs) (interleave sched.calls sessions)
          (s.speaker.PeerSessions (s.speaker.PeerSessions w).2).2 ∧
      ((announcePodCIDRs ParseCIDR s cidrs sched w).1 = none ↔
        ∀ e ∈ (applySets (toAdvertisements ParseCIDR cidrs) (interleave sched.calls sessions)
          (s.speaker.PeerSessions (s.speaker.PeerSessions w).2).2).1, e.result = none) ∧
      ((∃ e ∈ (applySets (toAdvertisements ParseCIDR cidrs) (interleave sched.calls sessions)
          (s.speaker.PeerSessions (s.speaker.PeerSessions w).2).2).1, e.result ≠ none) →
        (announcePodCIDRs ParseCIDR s cidrs sched w).1 ≠ none) ∧
      List.Perm ((announcePodCIDRs ParseCIDR s cidrs sched w).2.1.map Event.sess)
        (sessions.map (fun x => x.id)) := by
  have hadv := announce_adverts_ne_nil ParseCIDR cidrs hvalid
  have heq := announcePodCIDRs_applySets ParseCIDR s sessions cidrs sched w hreg hne hadv
  have hiff := announcePodCIDRs_none_iff ParseCIDR s sessions cidrs sched w hreg hne hadv
  rw [heq] at hiff
  refine ⟨interleave_perm _ _, heq, hiff, ?_, ?_⟩
  · rintro ⟨e, he, hfail⟩ hnone
    exact hfail (hiff.1 hnone e he)
  · have hp := (announcePodCIDRs_calls_perm ParseCIDR s sessions cidrs sched w hreg hne hadv).map
      Prod.fst
    simpa [Event.call, Function.comp_def] using hp

theorem announce_nil_iff_all_sets_nil_witness :
    ((∀ v, ((fixedSpeaker [recordingSession 1 none,
          recordingSession 2 (some "boom")]).speaker.PeerSessions v).1
        = [recordingSession 1 none, recordingSession 2 (some "boom")]) ∧
      [recordingSession 1 none, recordingSession 2 (some "boom")] ≠ [] ∧
      ∃ c ∈ ["10.0.0.0/24", "10.0.1.0/24"], accepts sampleParseCIDR c = true) ∧
    ((recordingSession 2 (some "boom")).Set
        (toAdvertisements sampleParseCIDR ["10.0.0.0/24", "10.0.1.0/24"]) []).1 ≠ none ∧
    (announcePodCIDRs sampleParseCIDR
        (fixedSpeaker [recordingSession 1 none, recordingSession 2 (some "boom")])
        ["10.0.0.0/24", "10.0.1.0/24"] ⟨[0], [1]⟩ []).1 ≠ none :=
  ⟨⟨fun _ => rfl, by simp, "10.0.0.0/24", by simp, by decide⟩, by decide,
   (announce_nil_iff_all_sets_nil sampleParseCIDR
     (fixedSpeaker [recordingSession 1 none, recordingSession 2 (some "boom")])
     [recordingSession 1 none, recordingSession 2 (some "boom")]
     ["10.0.0.0/24", "10.0.1.0/24"] ⟨[0], [1]⟩ [] (fun _ => rfl) (by simp)
     ⟨"10.0.0.0/24", by simp, by decide⟩).2.2.2.1 (by decide)⟩

/-- C3: `announcePodCIDRs` never makes a `Set` call with an empty argument; and
with a registry that reports the non-empty list `sessions` and a CIDR list
without any accepted entry it returns "no BGP advertisements made", which is not
the "No established BGP session" error, and makes no `Set` call. -/
theorem announce_no_valid_cidr {σ : Type} (ParseCIDR : Parser) (s : MetalLBSpeaker σ)
    (sessions : List (Session σ)) (cidrs : List String) (sched : Schedule) (w : σ) :
    (∀ e ∈ (announcePodCIDRs ParseCIDR s cidrs sched w).2.1, e.adverts ≠ emptyAdverts) ∧
      ((∀ v, (s.speaker.PeerSessions v).1 = sessions) → sessions ≠ [] →
        (∀ c ∈ cidrs, accepts ParseCIDR c = false) →
        (announcePodCIDRs ParseCIDR s cidrs sched w).1 = some "no BGP advertisements made" ∧
          (announcePodCIDRs ParseCIDR s cidrs sched w).1 ≠ some "No established BGP session" ∧
          (announcePodCIDRs ParseCIDR s cidrs sched w).2.1 = []) := by
  refine ⟨announcePodCIDRs_adverts_ne_nil ParseCIDR s cidrs sched w, ?_⟩
  intro hreg hne hbad
  have h := announcePodCIDRs_no_adverts ParseCIDR s sessions cidrs sched w hreg hne
    (announce_adverts_eq_nil ParseCIDR cidrs hbad)
  refine ⟨h.1, ?_, h.2⟩
  rw [h.1]
  decide

theorem announce_no_valid_cidr_witness :
    ((∀ v, ((fixedSpeaker [okSession 1, okSession 2]).speaker.PeerSessions v).1
        = [okSession 1, okSession 2]) ∧
      [okSession 1, okSession 2] ≠ [] ∧
      ∀ c ∈ ["not-a-cidr", "also-bad"], accepts sampleParseCIDR c = false) ∧
    ((announcePodCIDRs sampleParseCIDR (fixedSpeaker [okSession 1, okSession 2])
        ["not-a-cidr", "also-bad"] ⟨[1], [1]⟩ 0).1 = some "no BGP advertisements made" ∧
      (announcePodCIDRs sampleParseCIDR (fixedSpeaker [okSession 1, okSession 2])
        ["not-a-cidr", "also-bad"] ⟨[1], [1]⟩ 0).1 ≠ some "No established BGP session" ∧
      (announcePodCIDRs sampleParseCIDR (fixedSpeaker [okSession 1, okSession 2])
        ["not-a-cidr", "also-bad"] ⟨[1], [1]⟩ 0).2.1 = []) :=
  ⟨⟨fun _ => rfl, by simp, by decide⟩,
   (announce_no_valid_cidr sampleParseCIDR (fixedSpeaker [okSession 1, okSession 2])
     [okSession 1, okSession 2] ["not-a-cidr", "also-bad"] ⟨[1], [1]⟩ 0).2
     (fun _ => rfl) (by simp) (by decide)⟩

/-- C4: when the registry query made by `announcePodCIDRs` reports no session,
the result is "No established BGP session" and no `Set` call is made, for every
CIDR list. -/
theorem announce_no_session {σ : Type} (ParseCIDR : Parser) (s : MetalLBSpeaker σ)
    (cidrs : List String) (sched : Schedule) (w : σ)
    (hzero : (s.speaker.PeerSessions w).1 = []) :
    (announcePodCIDRs ParseCIDR s cidrs sched w).1 = some "No established BGP session" ∧
      (announcePodCIDRs ParseCIDR s cidrs sched w).2.1 = [] := by
  simp [announcePodCIDRs, hzero]

theorem announce_no_session_witness :
    ((fixedSpeaker ([] : List (Session Nat))).speaker.PeerSessions 0).1 = [] ∧
    ((announcePodCIDRs sampleParseCIDR (fixedSpeaker ([] : List (Session Nat)))
        ["10.0.0.0/24", "bad"] ⟨[1], [0]⟩ 0).1 = some "No established BGP session" ∧
      (announcePodCIDRs sampleParseCIDR (fixedSpeaker ([] : List (Session Nat)))
        ["10.0.0.0/24", "bad"] ⟨[1], [0]⟩ 0).2.1 = []) :=
  ⟨rfl, announce_no_session sampleParseCIDR _ _ _ _ rfl⟩

/-- C5: `withdraw` is total and returns the unit value; under every schedule
and whatever the `Set` calls return, the calls it records and the world it
leaves are those of applying the `Set` method of every session of the registry
snapshot once, in an order that is a permutation of the snapshot, each time to
the empty argument; with an empty snapshot no `Set` is applied and the world is
the one the registry query left. -/
theorem withdraw_one_empty_set_per_session {σ : Type} (s : MetalLBSpeaker σ)
    (sched : List Nat) (w : σ) :
    (withdraw s sched w).1 = () ∧
      List.Perm (interleave sched (s.speaker.PeerSessions w).1) (s.speaker.PeerSessions w).1 ∧
      (withdraw s sched w).2 =
        applySets [] (interleave sched (s.speaker.PeerSessions w).1)
          (s.speaker.PeerSessions w).2 ∧
      List.Perm ((withdraw s sched w).2.1.map Event.call)
        ((s.speaker.PeerSessions w).1.map (fun x => (x.id, []))) ∧
      ((s.speaker.PeerSessions w).1 = [] →
        (withdraw s sched w).2 = ([], (s.speaker.PeerSessions w).2)) := by
  have heq : (withdraw s sched w).2 =
      applySets [] (interleave sched (s.speaker.PeerSessions w).1)
        (s.speaker.PeerSessions w).2 := by
    unfold withdraw
    exact runAll_withdraw_applySets _ _
  refine ⟨rfl, interleave_perm _ _, heq, ?_, ?_⟩
  · unfold withdraw
    simp only []
    rw [runAll_withdraw_calls]
    exact (interleave_perm sched _).map _
  · intro h0
    rw [heq, h0]
    cases sched <;> simp [interleave, applySets]

theorem withdraw_one_empty_set_per_session_witness :
    (((fixedSpeaker ([] : List (Session (List Event)))).speaker.PeerSessions []).1 = [] ∧
      (withdraw (fixedSpeaker ([] : List (Session (List Event)))) [3, 1] []).2 = ([], [])) ∧
    (withdraw (fixedSpeaker [recordingSession 1 (some "down"), recordingSession 2 none])
        [1] []).2.2 = [⟨2, [], none⟩, ⟨1, [], some "down"⟩] :=
  ⟨⟨rfl, (withdraw_one_empty_set_per_session (fixedSpeaker ([] : List (Session (List Event))))
      [3, 1] []).2.2.2.2 rfl⟩,
   (congrArg Prod.snd
     (withdraw_one_empty_set_per_session
       (fixedSpeaker [recordingSession 1 (some "down"), recordingSession 2 none])
       [1] []).2.2.1).trans (by decide)⟩

/-- C6: the advertisement list built by the loop of `announce` is the input
restricted to the accepted entries, each mapped to the advertisement of its
parsed prefix, in input order; it has one element per accepted occurrence, a
rejected entry leaves what is built from the entries around it unchanged, and
the list built from a concatenation is the concatenation of the lists. -/
theorem announce_adverts_filters_in_order (ParseCIDR : Parser) (cidrs : List String) :
    announce_adverts ParseCIDR cidrs = cidrs.filterMap (parsedAdvert ParseCIDR) ∧
      (announce_adverts ParseCIDR cidrs).length = cidrs.countP (accepts ParseCIDR) ∧
      (∀ pre post : List String, cidrs = pre ++ post →
        announce_adverts ParseCIDR cidrs =
          announce_adverts ParseCIDR pre ++ announce_adverts ParseCIDR post) ∧
      (∀ (pre post : List String) (bad : String), cidrs = pre ++ bad :: post →
        accepts ParseCIDR bad = false →
        announce_adverts ParseCIDR cidrs = announce_adverts ParseCIDR (pre ++ post)) := by
  refine ⟨announce_adverts_eq ParseCIDR cidrs, ?_, ?_, ?_⟩
  · rw [announce_adverts_eq, length_toAdvertisements]
  · intro pre post h
    subst h
    simp [announce_adverts_eq, toAdvertisements]
  · intro pre post bad h hbad
    subst h
    have hnone : parsedAdvert ParseCIDR bad = none := by
      have := parsedAdvert_isSome ParseCIDR bad
      rw [hbad] at this
      cases hp : parsedAdvert ParseCIDR bad with
      | none => rfl
      | some a => simp [hp] at this
    simp [announce_adverts_eq, toAdvertisements, List.filterMap_cons, hnone]

theorem announce_adverts_filters_in_order_witness :
    (["10.0.1.0/24", "bad", "10.0.0.0/24", "10.0.1.0/24"]
        = ["10.0.1.0/24"] ++ "bad" :: ["10.0.0.0/24", "10.0.1.0/24"] ∧
      accepts sampleParseCIDR "bad" = false) ∧
    announce_adverts sampleParseCIDR ["10.0.1.0/24", "bad", "10.0.0.0/24", "10.0.1.0/24"]
      = announce_adverts sampleParseCIDR (["10.0.1.0/24"] ++ ["10.0.0.0/24", "10.0.1.0/24"]) :=
  ⟨⟨rfl, by decide⟩,
   (announce_adverts_filters_in_order sampleParseCIDR
      ["10.0.1.0/24", "bad", "10.0.0.0/24", "10.0.1.0/24"]).2.2.2
      ["10.0.1.0/24"] ["10.0.0.0/24", "10.0.1.0/24"] "bad" rfl (by decide)⟩

/-- C7: with a registry that reports the non-empty list `sessions` and a CIDR
list holding an accepted entry, if one of the applications of `Set` returned an
error then the error returned by `announcePodCIDRs` is the first error
encountered: the first non-nil result, in the order in which the goroutines
return, among what the `Set` method of each session returned.  It is therefore
the error of a failing `Set`, and when every failing `Set` returned the same
error, as with two sessions of which only the second fails, that error is the
result. -/
theorem announce_error_from_failing_set {σ : Type} (ParseCIDR : Parser) (s : MetalLBSpeaker σ)
    (sessions : List (Session σ)) (cidrs : List String) (sched : Schedule) (w : σ)
    (hreg : ∀ v, (s.speaker.PeerSessions v).1 = sessions) (hne : sessions ≠ [])
    (hvalid : ∃ c ∈ cidrs, accepts ParseCIDR c = true)
    (hfail : ∃ e ∈ (applySets (toAdvertisements ParseCIDR cidrs)
        (interleave sched.calls sessions)
        (s.speaker.PeerSessions (s.speaker.PeerSessions w).2).2).1, e.result ≠ none) :
    (announcePodCIDRs ParseCIDR s cidrs sched w).2 =
        applySets (toAdvertisements ParseCIDR cidrs) (interleave sched.calls sessions)
          (s.speaker.PeerSessions (s.speaker.PeerSessions w).2).2 ∧
      (announcePodCIDRs ParseCIDR s cidrs sched w).1 =
        firstError (interleave sched.done
          ((applySets (toAdvertisements ParseCIDR cidrs) (interleave sched.calls sessions)
            (s.speaker.PeerSessions (s.speaker.PeerSessions w).2).2).1.map Event.result)) ∧
      (∃ e ∈ (applySets (toAdvertisements ParseCIDR cidrs) (interleave sched.calls sessions)
          (s.speaker.PeerSessions (s.speaker.PeerSessions w).2).2).1,
        e.result ≠ none ∧ (announcePodCIDRs ParseCIDR s cidrs sched w).1 = e.result) ∧
      (∀ errB : String,
        (∀ e ∈ (applySets (toAdvertisements ParseCIDR cidrs) (interleave sched.calls sessions)
            (s.speaker.PeerSessions (s.speaker.PeerSessions w).2).2).1,
          e.result = none ∨ e.result = some errB) →
        (announcePodCIDRs ParseCIDR s cidrs sched w).1 = some errB) := by
  have hadv := announce_adverts_ne_nil ParseCIDR cidrs hvalid
  have heq := announcePodCIDRs_applySets ParseCIDR s sessions cidrs sched w hreg hne hadv
  have hfirst := announcePodCIDRs_firstError ParseCIDR s sessions cidrs sched w hreg hne hadv
  have hiff := announcePodCIDRs_none_iff ParseCIDR s sessions cidrs sched w hreg hne hadv
  rw [heq] at hiff
  have hsome : ∃ err, (announcePodCIDRs ParseCIDR s cidrs sched w).1 = some err := by
    cases hres : (announcePodCIDRs ParseCIDR s cidrs sched w).1 with
    | none =>
      obtain ⟨e, he, hf⟩ := hfail
      exact absurd (hiff.1 hres e he) hf
    | some err => exact ⟨err, rfl⟩
  obtain ⟨err, herr⟩ := hsome
  obtain ⟨e, he, hres⟩ :=
    announcePodCIDRs_some_mem ParseCIDR s sessions cidrs sched w hreg hne hadv err herr
  rw [heq] at he
  refine ⟨heq, hfirst, ⟨e, he, by simp [hres], by rw [herr, hres]⟩, ?_⟩
  intro errB hall
  rcases hall e he with h | h
  · rw [hres] at h
    cases h
  · rw [herr, ← hres, h]

theorem announce_error_from_failing_set_witness :
    ((∀ v, ((fixedSpeaker [recordingSession 1 (some "a"),
          recordingSession 2 (some "b")]).speaker.PeerSessions v).1
        = [recordingSession 1 (some "a"), recordingSession 2 (some "b")]) ∧
      [recordingSession 1 (some "a"), recordingSession 2 (some "b")] ≠ [] ∧
      (∃ c ∈ ["10.0.0.0/24", "10.0.1.0/24"], accepts sampleParseCIDR c = true) ∧
      (∃ e ∈ (applySets (toAdvertisements sampleParseCIDR ["10.0.0.0/24", "10.0.1.0/24"])
          (interleave [0] [recordingSession 1 (some "a"), recordingSession 2 (some "b")])
          []).1, e.result ≠ none)) ∧
    (announcePodCIDRs sampleParseCIDR
        (fixedSpeaker [recordingSession 1 (some "a"), recordingSession 2 (some "b")])
        ["10.0.0.0/24", "10.0.1.0/24"] ⟨[0], [0]⟩ []).1 = some "a" ∧
    (announcePodCIDRs sampleParseCIDR
        (fixedSpeaker [recordingSession 1 (some "a"), recordingSession 2 (some "b")])
        ["10.0.0.0/24", "10.0.1.0/24"] ⟨[0], [1]⟩ []).1 = some "b" ∧
    (announcePodCIDRs sampleParseCIDR
        (fixedSpeaker [recordingSession 1 none, recordingSession 2 (some "B down")])
        ["10.0.0.0/24", "10.0.1.0/24"] ⟨[0], [0]⟩ []).1 = some "B down" :=
  ⟨⟨fun _ => rfl, by simp, ⟨"10.0.0.0/24", by simp, by decide⟩, by decide⟩,
   (announce_error_from_failing_set sampleParseCIDR
     (fixedSpeaker [recordingSession 1 (some "a"), recordingSession 2 (some "b")])
     [recordingSession 1 (some "a"), recordingSession 2 (some "b")]
     ["10.0.0.0/24", "10.0.1.0/24"] ⟨[0], [0]⟩ [] (fun _ => rfl) (by simp)
     ⟨"10.0.0.0/24", by simp, by decide⟩ (by decide)).2.1.trans (by decide),
   (announce_error_from_failing_set sampleParseCIDR
     (fixedSpeaker [recordingSession 1 (some "a"), recordingSession 2 (some "b")])
     [recordingSession 1 (some "a"), recordingSession 2 (some "b")]
     ["10.0.0.0/24", "10.0.1.0/24"] ⟨[0], [1]⟩ [] (fun _ => rfl) (by simp)
     ⟨"10.0.0.0/24", by simp, by decide⟩ (by decide)).2.1.trans (by decide),
   (announce_error_from_failing_set sampleParseCIDR
     (fixedSpeaker [recordingSession 1 none, recordingSession 2 (some "B down")])
     [recordingSession 1 none, recordingSession 2 (some "B down")]
     ["10.0.0.0/24", "10.0.1.0/24"] ⟨[0], [0]⟩ [] (fun _ => rfl) (by simp)
     ⟨"10.0.0.0/24", by simp, by decide⟩ (by decide)).2.2.2 "B down" (by decide)⟩

/-- C8: with a registry that reports the non-empty list `sessions` at every
query and a CIDR list holding an accepted entry, two calls of `announcePodCIDRs`
in succession, under any two schedules, each apply the `Set` method of every
session once to the same argument, the parsed prefixes of the accepted entries:
the second call's `Set` calls are one per session, as many as the first's, with
arguments equal to the first's. -/
theorem announce_twice_same_prefix_set {σ : Type} (ParseCIDR : Parser) (s : MetalLBSpeaker σ)
    (sessions : List (Session σ)) (cidrs : List String) (sched1 sched2 : Schedule) (w : σ)
    (hreg : ∀ v, (s.speaker.PeerSessions v).1 = sessions) (hne : sessions ≠ [])
    (hvalid : ∃ c ∈ cidrs, accepts ParseCIDR c = true) :
    (announcePodCIDRs ParseCIDR s cidrs sched1 w).2 =
        applySets (toAdvertisements ParseCIDR cidrs) (interleave sched1.calls sessions)
          (s.speaker.PeerSessions (s.speaker.PeerSessions w).2).2 ∧
      (announcePodCIDRs ParseCIDR s cidrs sched2
          (announcePodCIDRs ParseCIDR s cidrs sched1 w).2.2).2 =
        applySets (toAdvertisements ParseCIDR cidrs) (interleave sched2.calls sessions)
          (s.speaker.PeerSessions (s.speaker.PeerSessions
            (announcePodCIDRs ParseCIDR s cidrs sched1 w).2.2).2).2 ∧
      List.Perm
        ((announcePodCIDRs ParseCIDR s cidrs sched2
          (announcePodCIDRs ParseCIDR s cidrs sched1 w).2.2).2.1.map Event.call)
        ((announcePodCIDRs ParseCIDR s cidrs sched1 w).2.1.map Event.call) ∧
      (announcePodCIDRs ParseCIDR s cidrs sched2
          (announcePodCIDRs ParseCIDR s cidrs sched1 w).2.2).2.1.length = sessions.length ∧
      (∀ e1 ∈ (announcePodCIDRs ParseCIDR s cidrs sched1 w).2.1,
        ∀ e2 ∈ (announcePodCIDRs ParseCIDR s cidrs sched2
          (announcePodCIDRs ParseCIDR s cidrs sched1 w).2.2).2.1,
        e2.adverts = e1.adverts ∧ e2.adverts = toAdvertisements ParseCIDR cidrs) := by
  have hadv := announce_adverts_ne_nil ParseCIDR cidrs hvalid
  have h1 := announcePodCIDRs_calls_perm ParseCIDR s sessions cidrs sched1 w hreg hne hadv
  have h2 := announcePodCIDRs_calls_perm ParseCIDR s sessions cidrs sched2
    (announcePodCIDRs ParseCIDR s cidrs sched1 w).2.2 hreg hne hadv
  have hargs : ∀ (l : List Event),
      List.Perm (l.map Event.call)
        (sessions.map (fun x => (x.id, announce_adverts ParseCIDR cidrs))) →
      ∀ e ∈ l, e.adverts = toAdvertisements ParseCIDR cidrs := by
    intro l hl e he
    have hm : e.call ∈ sessions.map (fun x => (x.id, announce_adverts ParseCIDR cidrs)) :=
      hl.mem_iff.1 (List.mem_map_of_mem _ he)
    rw [List.mem_map] at hm
    obtain ⟨x, _, hx⟩ := hm
    have := congrArg Prod.snd hx
    rw [← announce_adverts_eq]
    simpa [Event.call] using this.symm
  refine ⟨announcePodCIDRs_applySets ParseCIDR s sessions cidrs sched1 w hreg hne hadv,
    announcePodCIDRs_applySets ParseCIDR s sessions cidrs sched2 _ hreg hne hadv,
    h2.trans h1.symm, ?_, ?_⟩
  · have := h2.length_eq
    simpa using this
  · intro e1 he1 e2 he2
    rw [hargs _ h1 e1 he1, hargs _ h2 e2 he2]
    exact ⟨rfl, rfl⟩

theorem announce_twice_same_prefix_set_witness :
    ((∀ v, ((fixedSpeaker [recordingSession 1 none,
          recordingSession 2 (some "boom")]).speaker.PeerSessions v).1
        = [recordingSession 1 none, recordingSession 2 (some "boom")]) ∧
      [recordingSession 1 none, recordingSession 2 (some "boom")] ≠ [] ∧
      ∃ c ∈ ["10.0.0.0/24"], accepts sampleParseCIDR c = true) ∧
    (announcePodCIDRs sampleParseCIDR
        (fixedSpeaker [recordingSession 1 none, recordingSession 2 (some "boom")])
        ["10.0.0.0/24"] ⟨[1], [0]⟩
        (announcePodCIDRs sampleParseCIDR
          (fixedSpeaker [recordingSession 1 none, recordingSession 2 (some "boom")])
          ["10.0.0.0/24"] ⟨[0], [1]⟩ []).2.2).2.2 =
      [⟨1, [⟨⟨[10, 0, 0, 0], [255, 255, 255, 0]⟩⟩], none⟩,
       ⟨2, [⟨⟨[10, 0, 0, 0], [255, 255, 255, 0]⟩⟩], some "boom"⟩,
       ⟨2, [⟨⟨[10, 0, 0, 0], [255, 255, 255, 0]⟩⟩], some "boom"⟩,
       ⟨1, [⟨⟨[10, 0, 0, 0], [255, 255, 255, 0]⟩⟩], none⟩] :=
  ⟨⟨fun _ => rfl, by simp, "10.0.0.0/24", by simp, by decide⟩,
   (congrArg Prod.snd
     (announce_twice_same_prefix_set sampleParseCIDR
       (fixedSpeaker [recordingSession 1 none, recordingSession 2 (some "boom")])
       [recordingSession 1 none, recordingSession 2 (some "boom")]
       ["10.0.0.0/24"] ⟨[0], [1]⟩ ⟨[1], [0]⟩ [] (fun _ => rfl) (by simp)
       ⟨"10.0.0.0/24", by simp, by decide⟩).2.1).trans (by decide)⟩

/-- C9, as stated, fails: with no session the result is the non-nil error "No
established BGP session" although no `Set` call was made, let alone failed. -/
theorem announce_error_without_failed_push :
    ¬ ((announcePodCIDRs sampleParseCIDR (fixedSpeaker ([] : List (Session Nat)))
          ["10.0.0.0/24"] ⟨[], []⟩ 0).1 ≠ none ↔
        ∃ e ∈ (announcePodCIDRs sampleParseCIDR (fixedSpeaker ([] : List (Session Nat)))
          ["10.0.0.0/24"] ⟨[], []⟩ 0).2.1, e.result ≠ none) := by
  decide

/-- C9, amended: with a registry that reports the list `sessions` at every
query, `announcePodCIDRs` returns a non-nil error exactly when `sessions` is
empty, or no entry of the CIDR list is accepted, or some entry is accepted and
the `Set` method of a session, applied to the parsed prefixes, returned an
error.  In the first two cases no `Set` is applied; in the third the calls made
and the world left are those of applying the `Set` method of every session
once. -/
theorem announce_error_iff {σ : Type} (ParseCIDR : Parser) (s : MetalLBSpeaker σ)
    (sessions : List (Session σ)) (cidrs : List String) (sched : Schedule) (w : σ)
    (hreg : ∀ v, (s.speaker.PeerSessions v).1 = sessions) :
    ((announcePodCIDRs ParseCIDR s cidrs sched w).1 ≠ none ↔
        (sessions = [] ∨ (∀ c ∈ cidrs, accepts ParseCIDR c = false) ∨
          ((∃ c ∈ cidrs, accepts ParseCIDR c = true) ∧
            ∃ e ∈ (applySets (toAdvertisements ParseCIDR cidrs)
              (interleave sched.calls sessions)
              (s.speaker.PeerSessions (s.speaker.PeerSessions w).2).2).1,
              e.result ≠ none))) ∧
      (sessions = [] →
        (announcePodCIDRs ParseCIDR s cidrs sched w).2 = ([], (s.speaker.PeerSessions w).2)) ∧
      (sessions ≠ [] → (∀ c ∈ cidrs, accepts ParseCIDR c = false) →
        (announcePodCIDRs ParseCIDR s cidrs sched w).2 =
          ([], (s.speaker.PeerSessions (s.speaker.PeerSessions w).2).2)) ∧
      (sessions ≠ [] → (∃ c ∈ cidrs, accepts ParseCIDR c = true) →
        (announcePodCIDRs ParseCIDR s cidrs sched w).2 =
          applySets (toAdvertisements ParseCIDR cidrs) (interleave sched.calls sessions)
            (s.speaker.PeerSessions (s.speaker.PeerSessions w).2).2) := by
  refine ⟨?_, ?_, ?_, ?_⟩
  · by_cases hs : sessions = []
    · have h0 : (s.speaker.PeerSessions w).1 = [] := by rw [hreg, hs]
      simp [announcePodCIDRs, h0, hs]
    · by_cases hbad : ∀ c ∈ cidrs, accepts ParseCIDR c = false
      · have h := announcePodCIDRs_no_adverts ParseCIDR s sessions cidrs sched w hreg hs
          (announce_adverts_eq_nil ParseCIDR cidrs hbad)
        constructor
        · intro _
          exact Or.inr (Or.inl hbad)
        · intro _
          rw [h.1]
          simp
      · have hvalid : ∃ c ∈ cidrs, accepts ParseCIDR c = true := by
          by_contra hcon
          apply hbad
          intro c hc
          cases hacc : accepts ParseCIDR c with
          | false => rfl
          | true => exact absurd ⟨c, hc, hacc⟩ hcon
        have hadv := announce_adverts_ne_nil ParseCIDR cidrs hvalid
        have hiff := announcePodCIDRs_none_iff ParseCIDR s sessions cidrs sched w hreg hs hadv
        rw [announcePodCIDRs_applySets ParseCIDR s sessions cidrs sched w hreg hs hadv] at hiff
        constructor
        · intro hres
          refine Or.inr (Or.inr ⟨hvalid, ?_⟩)
          by_contra hcon
          apply hres
          rw [hiff]
          intro e he
          by_contra hf
          exact hcon ⟨e, he, hf⟩
        · rintro (h | h | ⟨_, e, he, hf⟩)
          · exact absurd h hs
          · exact absurd h hbad
          · intro hnone
            exact hf (hiff.1 hnone e he)
  · intro hs
    have h0 : (s.speaker.PeerSessions w).1 = [] := by rw [hreg, hs]
    simp [announcePodCIDRs, h0]
  · intro hs hbad
    exact announcePodCIDRs_no_adverts_world ParseCIDR s sessions cidrs sched w hreg hs
      (announce_adverts_eq_nil ParseCIDR cidrs hbad)
  · intro hs hvalid
    exact announcePodCIDRs_applySets ParseCIDR s sessions cidrs sched w hreg hs
      (announce_adverts_ne_nil ParseCIDR cidrs hvalid)

theorem announce_error_iff_witness :
    ((∀ v, ((fixedSpeaker [recordingSession 1 none,
          recordingSession 2 (some "boom")]).speaker.PeerSessions v).1
        = [recordingSession 1 none, recordingSession 2 (some "boom")]) ∧
      (∃ c ∈ ["10.0.0.0/24"], accepts sampleParseCIDR c = true) ∧
      ∃ e ∈ (applySets (toAdvertisements sampleParseCIDR ["10.0.0.0/24"])
          (interleave [1] [recordingSession 1 none, recordingSession 2 (some "boom")])
          []).1, e.result ≠ none) ∧
    (announcePodCIDRs sampleParseCIDR
        (fixedSpeaker [recordingSession 1 none, recordingSession 2 (some "boom")])
        ["10.0.0.0/24"] ⟨[1], [1]⟩ []).1 ≠ none ∧
    (announcePodCIDRs sampleParseCIDR
        (fixedSpeaker [recordingSession 1 none, recordingSession 2 (some "boom")])
        ["10.0.0.0/24"] ⟨[1], [1]⟩ []).2.2 =
      [⟨2, [⟨⟨[10, 0, 0, 0], [255, 255, 255, 0]⟩⟩], some "boom"⟩,
       ⟨1, [⟨⟨[10, 0, 0, 0], [255, 255, 255, 0]⟩⟩], none⟩] :=
  ⟨⟨fun _ => rfl, ⟨"10.0.0.0/24", by simp, by decide⟩, by decide⟩,
   (announce_error_iff sampleParseCIDR
     (fixedSpeaker [recordingSession 1 none, recordingSession 2 (some "boom")])
     [recordingSession 1 none, recordingSession 2 (some "boom")]
     ["10.0.0.0/24"] ⟨[1], [1]⟩ [] (fun _ => rfl)).1.2
     (Or.inr (Or.inr ⟨⟨"10.0.0.0/24", by simp, by decide⟩, by decide⟩)),
   (congrArg Prod.snd
     ((announce_error_iff sampleParseCIDR
       (fixedSpeaker [recordingSession 1 none, recordingSession 2 (some "boom")])
       [recordingSession 1 none, recordingSession 2 (some "boom")]
       ["10.0.0.0/24"] ⟨[1], [1]⟩ [] (fun _ => rfl)).2.2.2 (by simp)
       ⟨"10.0.0.0/24", by simp, by decide⟩)).trans (by decide)⟩

/-- C10: `announcePodCIDRs` evaluated on a registry whose first query reports
one session and whose second query reports none: the emptiness check passes on
the first snapshot, the fan-out ranges over the second, the result is nil and no
`Set` call is made; and when the second query reports other sessions, the `Set`
calls go to those and not to the session of the checked snapshot. -/
theorem announce_ranges_over_second_query :
    ((shiftingSpeaker [okSession 1] []).speaker.PeerSessions 0).1.map (fun x => x.id) = [1] ∧
      announcePodCIDRs sampleParseCIDR (shiftingSpeaker [okSession 1] [])
        ["10.0.0.0/24"] ⟨[], []⟩ 0 = (none, [], 2) ∧
      (announcePodCIDRs sampleParseCIDR (shiftingSpeaker [okSession 1] [okSession 2, okSession 3])
        ["10.0.0.0/24"] ⟨[], []⟩ 0).1 = none ∧
      (announcePodCIDRs sampleParseCIDR (shiftingSpeaker [okSession 1] [okSession 2, okSession 3])
        ["10.0.0.0/24"] ⟨[], []⟩ 0).2.1.map Event.sess = [2, 3] := by
  decide

end PodCIDR
